import Mathlib

/-!
Verification of the DeXVision relay core (src/server.js) against its
natural-language specification.

The development shallowly embeds the relevant parts of server.js:

* the canonical telemetry event model and its JSON serialization
  (the object literals passed to `broadcast` and `JSON.stringify`);
* the broadcast fan-out over the `clients` set (lines 102-121);
* target selection in `findAttachableTarget` (lines 128-136);
* the `verifyClient` upgrade check (lines 42-57) and subscriber
  registration (lines 65-86);
* the `/health` HTTP handler (lines 31-38);
* the heartbeat sweep (lines 89-99) and the per-subscriber two-tick
  liveness protocol;
* the bounded exponential-backoff attach loop
  `attachToChromeWithRetry` (lines 138-237);
* an operational model of the upstream session lifecycle (attach,
  disconnect, per-domain listeners, the self-rescheduling performance
  timer) used to settle the stale-session-leakage invariant.

Machine integers do not overflow in any modelled computation, so Nat is
used throughout.  JS strings are Lean Strings; absent JS values are
Option.none.  All definitions are executable.
-/

namespace DeX

/-! ## Event model and serialization

The four variants correspond to the four object literals passed to
`broadcast` in server.js.  Field order matches the JS object literal
insertion order (which `JSON.stringify` preserves).  Optional fields
model the `response?.url` style accesses: when the JS value is
`undefined`, `JSON.stringify` omits the key.  Numeric payloads are
modelled as Nat (their exact numeric type is irrelevant to every claim
settled here). -/

inductive TelemetryEvent where
  | network (ts : Nat) (id : String) (url : Option String) (status : Option Nat)
      (rtype : String) (protocol : Option String) (encodedDataLength : Option Nat)
  | networkFinish (ts : Nat) (id : String) (encodedDataLength : Nat)
  | exception (ts : Nat) (text : Option String) (url : Option String)
      (lineNumber : Option Nat) (columnNumber : Option Nat)
  | performance (ts : Nat) (metrics : List (String × Nat))
deriving DecidableEq, Repr

def kindName : TelemetryEvent → String
  | .network .. => "network"
  | .networkFinish .. => "networkFinish"
  | .exception .. => "exception"
  | .performance .. => "performance"

def jsonFieldStr (k v : String) : String :=
  ",\"" ++ k ++ "\":\"" ++ v ++ "\""

def jsonFieldNat (k : String) (v : Nat) : String :=
  ",\"" ++ k ++ "\":" ++ toString v

def jsonFieldOptStr (k : String) : Option String → String
  | none => ""
  | some v => jsonFieldStr k v

def jsonFieldOptNat (k : String) : Option Nat → String
  | none => ""
  | some v => jsonFieldNat k v

def jsonMetric (m : String × Nat) : String :=
  "\x7b\"name\":\"" ++ m.1 ++ "\",\"value\":" ++ toString m.2 ++ "\x7d"

def jsonMetrics (ms : List (String × Nat)) : String :=
  ",\"metrics\":[" ++ String.intercalate "," (ms.map jsonMetric) ++ "]"

/-- Serialized fields after the leading kind discriminator, in JS object
literal order. -/
def fieldsTail : TelemetryEvent → String
  | .network ts id url status rtype protocol enc =>
      jsonFieldNat "ts" ts ++ jsonFieldStr "id" id ++ jsonFieldOptStr "url" url ++
      jsonFieldOptNat "status" status ++ jsonFieldStr "type" rtype ++
      jsonFieldOptStr "protocol" protocol ++ jsonFieldOptNat "encodedDataLength" enc
  | .networkFinish ts id enc =>
      jsonFieldNat "ts" ts ++ jsonFieldStr "id" id ++ jsonFieldNat "encodedDataLength" enc
  | .exception ts text url line col =>
      jsonFieldNat "ts" ts ++ jsonFieldOptStr "text" text ++ jsonFieldOptStr "url" url ++
      jsonFieldOptNat "lineNumber" line ++ jsonFieldOptNat "columnNumber" col
  | .performance ts ms =>
      jsonFieldNat "ts" ts ++ jsonMetrics ms

/-- Opening of every serialized telemetry event: the kind discriminator
comes first in each object literal passed to broadcast. -/
def jsonEventPre : String := "\x7b\"kind\":\""

def serializeRest (e : TelemetryEvent) : String :=
  kindName e ++ "\"" ++ fieldsTail e ++ "\x7d"

/-- Model of the single JSON.stringify call in broadcast (server.js
line 103). -/
def serialize (e : TelemetryEvent) : String :=
  jsonEventPre ++ serializeRest e

/-! ## Downstream subscribers (the `clients` set)

One downstream WebSocket: `id` identifies the socket object,
`isAlive` is the heartbeat flag set by the connection handler and the
pong listener, `readyStateOpen` models `readyState === WebSocket.OPEN`,
and `sendThrows` is the environment fact that `ws.send` raises when
called on this socket. -/

structure Ws where
  id : Nat
  isAlive : Bool
  readyStateOpen : Bool
  sendThrows : Bool
deriving DecidableEq, Repr

structure BroadcastResult where
  clients : List Ws
  delivered : List (Nat × String)
  terminated : List Nat
deriving DecidableEq, Repr

/-- Loop body of broadcast (server.js lines 104-120), one iteration per
subscriber, in set order: a socket that is not OPEN is deleted from the
set and skipped; a socket whose send throws is deleted and terminated
(the exception is caught, so the loop continues); otherwise the
already-serialized payload is sent. -/
def broadcastGo (payload : String) : List Ws → BroadcastResult
  | [] => ⟨[], [], []⟩
  | ws :: rest =>
    if ws.readyStateOpen = false then
      broadcastGo payload rest
    else if ws.sendThrows then
      let r := broadcastGo payload rest
      { r with terminated := ws.id :: r.terminated }
    else
      let r := broadcastGo payload rest
      { r with clients := ws :: r.clients,
               delivered := (ws.id, payload) :: r.delivered }

/-- Model of broadcast (server.js lines 102-121): the event is
serialized exactly once, before the loop, and that single payload is
what every successful send delivers. -/
def broadcast (event : TelemetryEvent) (clients : List Ws) : BroadcastResult :=
  broadcastGo (serialize event) clients

/-! ## Target selection (`findAttachableTarget`, lines 128-136) -/

structure Target where
  ttype : String
  url : String
deriving DecidableEq, Repr

/-- Predicate of the `list.find` call: kind page or background_page,
url truthy (JS `t.url &&` — the empty string is falsy), and not a
devtools:// or chrome:// url. -/
def isPreferredTarget (t : Target) : Bool :=
  (t.ttype == "page" || t.ttype == "background_page") &&
  t.url != "" && !(t.url.startsWith "devtools://") && !(t.url.startsWith "chrome://")

/-- Selection logic of findAttachableTarget over the discovered target
list: `page || list[0]`, with `undefined` for the empty list. -/
def findAttachableTarget (list : List Target) : Option Target :=
  match list.find? isPreferredTarget with
  | some page => some page
  | none => list.head?

/-- Modelled from the spec's words for the refinement comparison in
claim C5: the preferred predicate as the claim states it — kind page or
background and url not an internal scheme — with no requirement that
the url be present/nonempty. -/
def isPreferredTargetSpec (t : Target) : Bool :=
  (t.ttype == "page" || t.ttype == "background_page") &&
  !(t.url.startsWith "devtools://") && !(t.url.startsWith "chrome://")

/-- Modelled from the spec's words for the refinement comparison in
claim C5: first preferred candidate, else first candidate, else none. -/
def selectTargetSpec (list : List Target) : Option Target :=
  match list.find? isPreferredTargetSpec with
  | some page => some page
  | none => list.head?

/-! ## Upgrade verification (`verifyClient`, lines 42-57) -/

inductive VerifyResult where
  | accepted
  | rejected (status : Nat) (reason : String)
deriving DecidableEq, Repr

/-- Model of the verifyClient callback.  A configured value is a
nonempty string (JS truthiness of the env-derived constants); `origin`
is the request's Origin header (absent for non-browser clients) and
`token` is `url.searchParams.get` of the token parameter (none when the
query parameter is absent). -/
def verifyClient (allowedOrigin sharedSecret : String)
    (origin token : Option String) : VerifyResult :=
  if (allowedOrigin ≠ "" ∧ origin ≠ some allowedOrigin) ∨
     (sharedSecret ≠ "" ∧ token ≠ some sharedSecret) then
    .rejected 401 "Unauthorized"
  else
    .accepted

/-- Upgrade pipeline: the ws server runs verifyClient before the
connection event; only an accepted upgrade reaches the connection
handler, which registers the subscriber with isAlive = true (lines
65-69).  Returns the new subscriber set and the HTTP status sent on
rejection. -/
def handleUpgrade (allowedOrigin sharedSecret : String)
    (origin token : Option String) (clients : List Ws) (fresh : Nat) :
    List Ws × Option Nat :=
  match verifyClient allowedOrigin sharedSecret origin token with
  | .rejected s _ => (clients, some s)
  | .accepted => (clients ++ [⟨fresh, true, true, false⟩], none)

/-! ## HTTP side channel (lines 31-38) -/

structure HttpResponse where
  status : Nat
  contentType : Option String
  body : String
deriving DecidableEq, Repr

def jsonHealthPre : String := "\x7b\"ok\":true,\"cdpPort\":"

/-- Body of the /health response: literally
JSON.stringify of the object with ok, cdpPort and wsPort fields. -/
def healthBody (cdpPort wsPort : Nat) : String :=
  jsonHealthPre ++ toString cdpPort ++ ",\"wsPort\":" ++ toString wsPort ++ "\x7d"

set_option linter.unusedVariables false

/-- Model of the http.createServer request handler.  The handler closes
over the whole process state — in particular `cdpClient`, modelled by
`attached` — but its body consults only the request url. -/
def handleHttpRequest (cdpPort wsPort : Nat) (attached : Bool) (url : String) :
    HttpResponse :=
  if url = "/health" then
    ⟨200, some "application/json", healthBody cdpPort wsPort⟩
  else
    ⟨404, none, ""⟩

/-! ## Heartbeat sweep (lines 89-99) and two-tick liveness -/

structure SweepResult where
  clients : List Ws
  terminated : List Nat
  pinged : List Nat
deriving DecidableEq, Repr

/-- One run of the setInterval heartbeat body: a subscriber whose
isAlive flag is false is terminated and deleted; every other subscriber
has isAlive cleared and is sent a transport-level ping (the try/catch
around ws.ping swallows any error). -/
def heartbeatSweep : List Ws → SweepResult
  | [] => ⟨[], [], []⟩
  | ws :: rest =>
    if ws.isAlive = false then
      let r := heartbeatSweep rest
      { r with terminated := ws.id :: r.terminated }
    else
      let r := heartbeatSweep rest
      { r with clients := { ws with isAlive := false } :: r.clients,
               pinged := ws.id :: r.pinged }

/-- Effect of the pong listener registered by the connection handler
(line 67). -/
def onPong (ws : Ws) : Ws := { ws with isAlive := true }

/-- Evolution of a single subscriber across successive sweeps.  The
state is none once the sweep has terminated it; otherwise some of its
isAlive flag.  Each list element says whether the subscriber answered
the probe (a pong arrived) before the next sweep: a sweep removes a
dead-flagged subscriber and otherwise clears the flag and probes, and a
pong between sweeps sets the flag again. -/
def trackSweeps : Option Bool → List Bool → Option Bool
  | none, _ => none
  | some a, [] => some a
  | some a, answered :: rest =>
    if a then trackSweeps (some answered) rest else none

/-! ## Connection-handler listeners and client-to-server frames

The connection handler (lines 65-86) registers listeners for exactly
the pong, close and error socket events; no message listener is
registered, so incoming data frames from a subscriber are dropped by
the ws library defaults and the relay never produces a reply frame. -/

def connectionListenerKinds : List String := ["pong", "close", "error"]

inductive SocketEvent where
  | pong
  | closeEvt
  | errorEvt
  | message (data : String)
deriving DecidableEq, Repr

/-- Dispatch of one socket event for subscriber `i` against the
listeners the connection handler registered.  Returns the new
subscriber set and the frames the server sends in response (the error
listener also terminates the transport; termination is not a frame). -/
def handleSocketEvent (clients : List Ws) (i : Nat) :
    SocketEvent → List Ws × List String
  | .pong => (clients.map fun ws => if ws.id = i then { ws with isAlive := true } else ws, [])
  | .closeEvt => (clients.filter fun ws => ws.id ≠ i, [])
  | .errorEvt => (clients.filter fun ws => ws.id ≠ i, [])
  | .message _ => (clients, [])

/-! ## Attach-retry loop (`attachToChromeWithRetry`, lines 138-237)

The loop is driven by the environment: `outcomes n` tells whether
attach attempt number n (1-indexed) succeeds.  `shuttingDown` is false
throughout a modelled run (no shutdown signal arrives).  The fuel
argument equals maxAttempts - attempt, which is exactly the loop guard
`attempt < MAX_RETRY_ATTEMPTS`; the explicit `maxA ≤ n` test mirrors
the `attempt >= MAX_RETRY_ATTEMPTS` check that logs the fatal
exceeded-max message and breaks. -/

structure RetryRun where
  attempts : List (Nat × Nat)
  fatalReports : Nat
  attached : Bool
deriving DecidableEq, Repr

/-- Loop body: each recorded attempt carries its 1-indexed number and
the backoff delay awaited immediately before it (0 for an attempt not
preceded by a delay).  On failure the counter increments and the next
delay is RETRY_INTERVAL_MS * 2 ^ (attempt - 1) for the incremented
counter, exactly as computed on line 224. -/
def attachGo (base maxA : Nat) (outcomes : Nat → Bool) :
    Nat → Nat → Nat → RetryRun
  | 0, _, _ => ⟨[], 0, false⟩
  | fuel + 1, attempt, pendingDelay =>
    let n := attempt + 1
    if outcomes n then
      ⟨[(n, pendingDelay)], 0, true⟩
    else
      let delay := base * 2 ^ (n - 1)
      if maxA ≤ n then
        ⟨[(n, pendingDelay)], 1, false⟩
      else
        let r := attachGo base maxA outcomes fuel n delay
        ⟨(n, pendingDelay) :: r.attempts, r.fatalReports, r.attached⟩

/-- One invocation of attachToChromeWithRetry: the attempt counter is a
local starting at 0, so every invocation (initial or the fresh call
made by the disconnect handler) counts from scratch. -/
def attachToChromeWithRetry (base maxA : Nat) (outcomes : Nat → Bool) : RetryRun :=
  attachGo base maxA outcomes maxA 0 0

end DeX

namespace DeX.Session

/-!
Operational model of the upstream session lifecycle, for the
stale-session-leakage claim.

Session handles are numbered by generation; `nextGen` is the allocator.
`alive` holds the generations whose transport has not yet delivered its
close event; `wired` holds the generations whose four domain enables
(lines 160-165) succeeded, so their per-domain listeners (lines
168-203) and performance timer (lines 205-218) are registered;
`current` is the global `cdpClient` variable; `log` records every
performance/network broadcast as the pair of the producing handle's
generation and the value of `current` at delivery time.

The step semantics follow the code's actual control flow:

* connect is line 147 succeeding inside some running
  attachToChromeWithRetry invocation: the only guard in the code is the
  loop's `!shuttingDown` check — `cdpClient` is reassigned immediately,
  the handle's disconnect handler (lines 150-157) is registered at
  once, and nothing requires prior handles to be gone.  If a domain
  enable then rejects (connect with enablesOk = false), control jumps
  to the catch and retries, but the connected client is never closed:
  it stays alive with its disconnect handler and no listeners — the
  leaked-handle path.  With enablesOk = true the handle also gets its
  listeners and timer (wired);
* a domain listener of handle g runs only when the transport delivers a
  message for g: netEvent requires g alive and wired;
* the performance timer of handle g checks only
  `!cdpClient || shuttingDown` (line 208) — not handle identity — and
  broadcasts iff its `Performance.getMetrics()` resolves, which
  requires g's transport messages still flowing: perfTick requires
  current nonempty, not shutting down, and g alive and wired;
* the disconnect action is the processing of g's transport close event:
  from that moment no further message of g is delivered, and g's
  disconnect handler starts a fresh reattach in the same turn (modelled
  by later connect actions).

Because connect is not serialized against live handles, the model
reaches the code's two-simultaneous-handles states: a leaked handle's
later disconnect triggers a reattach while a fully-attached handle is
still live and broadcasting.
-/

structure St where
  nextGen : Nat
  alive : List Nat
  wired : List Nat
  current : Option Nat
  shuttingDown : Bool
  log : List (Nat × Option Nat)
deriving DecidableEq, Repr

inductive Act where
  | connect (enablesOk : Bool)
  | disconnect (g : Nat)
  | netEvent (g : Nat)
  | perfTick (g : Nat)
  | beginShutdown
deriving DecidableEq, Repr

def step (s : St) : Act → St
  | .connect enablesOk =>
    if s.shuttingDown = false then
      { s with nextGen := s.nextGen + 1
               alive := s.nextGen :: s.alive
               wired := if enablesOk then s.nextGen :: s.wired else s.wired
               current := some s.nextGen }
    else s
  | .disconnect g => { s with alive := s.alive.filter fun x => x ≠ g }
  | .netEvent g =>
    if g ∈ s.alive ∧ g ∈ s.wired then { s with log := s.log ++ [(g, s.current)] } else s
  | .perfTick g =>
    if s.current ≠ none ∧ s.shuttingDown = false ∧ g ∈ s.alive ∧ g ∈ s.wired then
      { s with log := s.log ++ [(g, s.current)] }
    else s
  | .beginShutdown => { s with shuttingDown := true }

def run (s : St) (l : List Act) : St := l.foldl step s

def init : St := ⟨0, [], [], none, false, []⟩

/-- Reachability invariant: every live generation was allocated. -/
def Inv (s : St) : Prop :=
  ∀ g ∈ s.alive, g < s.nextGen

/-- A handle whose transport close has been processed and whose
generation was allocated in the past. -/
def Dead (g : Nat) (s : St) : Prop :=
  g ∉ s.alive ∧ g < s.nextGen

end DeX.Session

namespace DeX

/-! ## Sample inputs used by counterexamples and witnesses -/

/-- Subscriber A of the publish scenario: open, send succeeds. -/
def wsA : Ws := ⟨0, true, true, false⟩

/-- Subscriber B of the publish scenario: socket not open. -/
def wsB : Ws := ⟨1, true, false, false⟩

/-- Subscriber C of the publish scenario: open, send throws. -/
def wsC : Ws := ⟨2, true, true, true⟩

/-- A concrete telemetry event. -/
def evSample : TelemetryEvent := .networkFinish 0 "r1" 10

/-- A page target whose url field is empty (JS-falsy). -/
def tgtEmptyUrlPage : Target := ⟨"page", ""⟩

/-- An ordinary http page target. -/
def tgtHttpPage : Target := ⟨"page", "http://a"⟩

/-- A non-page target with a browser-internal url. -/
def tgtChromeOther : Target := ⟨"other", "chrome://x"⟩

/-! ## Helper lemmas -/

theorem data_append (s t : String) : (s ++ t).data = s.data ++ t.data := by
  cases s; cases t; rfl

theorem broadcastGo_spec (p : String) (cs : List Ws) :
    (broadcastGo p cs).clients = cs.filter (fun ws => ws.readyStateOpen && !ws.sendThrows) ∧
    (broadcastGo p cs).delivered =
      (cs.filter (fun ws => ws.readyStateOpen && !ws.sendThrows)).map (fun ws => (ws.id, p)) ∧
    (broadcastGo p cs).terminated =
      (cs.filter (fun ws => ws.readyStateOpen && ws.sendThrows)).map (fun ws => ws.id) := by
  induction cs with
  | nil => exact ⟨rfl, rfl, rfl⟩
  | cons ws rest ih =>
    obtain ⟨ih1, ih2, ih3⟩ := ih
    cases hOpen : ws.readyStateOpen with
    | false => simp [broadcastGo, hOpen, ih1, ih2, ih3]
    | true =>
      cases hThrows : ws.sendThrows with
      | false => simp [broadcastGo, hOpen, hThrows, ih1, ih2, ih3]
      | true => simp [broadcastGo, hOpen, hThrows, ih1, ih2, ih3]

theorem heartbeatSweep_spec (cs : List Ws) :
    (heartbeatSweep cs).terminated = (cs.filter (fun ws => !ws.isAlive)).map (fun ws => ws.id) ∧
    (heartbeatSweep cs).clients =
      (cs.filter (fun ws => ws.isAlive)).map (fun ws => { ws with isAlive := false }) ∧
    (heartbeatSweep cs).pinged = (cs.filter (fun ws => ws.isAlive)).map (fun ws => ws.id) := by
  induction cs with
  | nil => exact ⟨rfl, rfl, rfl⟩
  | cons ws rest ih =>
    obtain ⟨ih1, ih2, ih3⟩ := ih
    cases hAlive : ws.isAlive with
    | false => simp [heartbeatSweep, hAlive, ih1, ih2, ih3]
    | true => simp [heartbeatSweep, hAlive, ih1, ih2, ih3]

/-! ## Claim C2 -/

/-- Claim C2, counterexample to the claim as stated: in the canonical
publish scenario with subscribers A (open), B (closed) and C
(throws-on-send), subscriber B is removed from the subscriber set but
its transport is NOT forcibly terminated — broadcast only deletes a
non-open socket and calls terminate solely in the catch branch of a
throwing send. -/
theorem broadcast_closed_socket_not_terminated :
    wsB.id ∉ (broadcast evSample [wsA, wsB, wsC]).terminated ∧
    wsB ∉ (broadcast evSample [wsA, wsB, wsC]).clients ∧
    (broadcast evSample [wsA, wsB, wsC]).terminated = [wsC.id] := by decide

/-- Claim C2 (amended): broadcast serializes the event exactly once and
delivers that single payload exactly once to every open, non-throwing
subscriber; a non-open subscriber and a throws-on-send subscriber are
both removed from the subscriber set by the end of the call, the
throwing subscriber's transport is forcibly terminated (the non-open
one is deleted without a terminate call), no exception escapes (the
function is total and the throw is caught), and the bad subscribers do
not prevent delivery to A: in the scenario with A open, B closed and C
throwing, A receives the serialized payload exactly once whatever the
iteration order places around it. -/
theorem broadcast_isolates_failures :
    (∀ e cs,
      (broadcast e cs).clients = cs.filter (fun ws => ws.readyStateOpen && !ws.sendThrows) ∧
      (broadcast e cs).delivered =
        (cs.filter (fun ws => ws.readyStateOpen && !ws.sendThrows)).map
          (fun ws => (ws.id, serialize e)) ∧
      (broadcast e cs).terminated =
        (cs.filter (fun ws => ws.readyStateOpen && ws.sendThrows)).map (fun ws => ws.id)) ∧
    (∀ e (a b c : Ws),
      a.readyStateOpen = true → a.sendThrows = false →
      b.readyStateOpen = false →
      c.readyStateOpen = true → c.sendThrows = true →
      (broadcast e [b, c, a]).delivered = [(a.id, serialize e)] ∧
      (broadcast e [b, c, a]).clients = [a] ∧
      (broadcast e [b, c, a]).terminated = [c.id]) := by
  refine ⟨fun e cs => broadcastGo_spec (serialize e) cs, ?_⟩
  intro e a b c ha1 ha2 hb hc1 hc2
  obtain ⟨h1, h2, h3⟩ := broadcastGo_spec (serialize e) [b, c, a]
  refine ⟨?_, ?_, ?_⟩
  · rw [broadcast, h2]; simp [List.filter, ha1, ha2, hb, hc1, hc2]
  · rw [broadcast, h1]; simp [List.filter, ha1, ha2, hb, hc1, hc2]
  · rw [broadcast, h3]; simp [List.filter, ha1, ha2, hb, hc1, hc2]

/-- Claim C2 witness: a concrete instantiation of the scenario. -/
theorem broadcast_isolates_failures_witness :
    (broadcast evSample [wsB, wsC, wsA]).delivered = [(wsA.id, serialize evSample)] ∧
    (broadcast evSample [wsB, wsC, wsA]).clients = [wsA] ∧
    (broadcast evSample [wsB, wsC, wsA]).terminated = [wsC.id] :=
  broadcast_isolates_failures.2 evSample wsA wsB wsC rfl rfl rfl rfl rfl

theorem find?_eq_head?_filter (p : α → Bool) (l : List α) :
    l.find? p = (l.filter p).head? := by
  induction l with
  | nil => rfl
  | cons a l ih =>
    cases h : p a with
    | true => rw [List.find?_cons_of_pos _ h, List.filter_cons_of_pos h]; rfl
    | false =>
      rw [List.find?_cons_of_neg _ (by simp [h]), List.filter_cons_of_neg (by simp [h])]
      exact ih

/-! ## Claim C5 -/

/-- Claim C5, counterexample to the claim as stated: the code's
preferred-target predicate additionally requires a truthy (nonempty)
url (`t.url &&` on line 133).  A page candidate with an empty url
satisfies the claim's stated predicate (its url is neither devtools://
nor chrome://), so the claim picks it first, but findAttachableTarget
skips it and returns the later http page. -/
theorem findAttachableTarget_ne_spec_selection :
    findAttachableTarget [tgtEmptyUrlPage, tgtHttpPage] = some tgtHttpPage ∧
    selectTargetSpec [tgtEmptyUrlPage, tgtHttpPage] = some tgtEmptyUrlPage ∧
    findAttachableTarget [tgtEmptyUrlPage, tgtHttpPage] ≠
      selectTargetSpec [tgtEmptyUrlPage, tgtHttpPage] := by decide

/-- Claim C5 (amended): findAttachableTarget returns the first
candidate whose kind is page or background_page and whose url is
nonempty and not devtools:// or chrome://; if no candidate satisfies
that, it returns the first candidate overall; for the empty sequence it
returns none.  In particular, on the spec's example list it returns the
page entry, not the first element, and whatever it returns is a member
of the candidate list. -/
theorem findAttachableTarget_policy :
    findAttachableTarget [] = none ∧
    findAttachableTarget [tgtChromeOther, tgtHttpPage] = some tgtHttpPage ∧
    (∀ l, findAttachableTarget l =
      ((l.filter isPreferredTarget).head?).orElse (fun _ => l.head?)) ∧
    (∀ l t, findAttachableTarget l = some t → t ∈ l) := by
  refine ⟨rfl, by decide, ?_, ?_⟩
  · intro l
    rw [findAttachableTarget, find?_eq_head?_filter]
    cases (l.filter isPreferredTarget).head? with
    | none => rfl
    | some t => rfl
  · intro l t h
    rw [findAttachableTarget] at h
    cases hf : l.find? isPreferredTarget with
    | some u =>
      rw [hf] at h
      cases h
      exact List.mem_of_find?_eq_some hf
    | none =>
      rw [hf] at h
      cases l with
      | nil => cases h
      | cons a l => cases h; exact List.mem_cons_self _ _

/-- Claim C5 witness: the policy theorem applied to the spec's example
list. -/
theorem findAttachableTarget_policy_witness :
    tgtHttpPage ∈ [tgtChromeOther, tgtHttpPage] :=
  findAttachableTarget_policy.2.2.2 [tgtChromeOther, tgtHttpPage] tgtHttpPage (by decide)

/-! ## Claims C7 and C9 -/

/-- Claim C7: when a shared secret is configured and the token query
parameter does not equal it, or an allowed origin is configured and the
Origin header does not equal it, verifyClient rejects the upgrade with
HTTP 401 and the upgrade pipeline leaves the subscriber set unchanged —
no subscriber object is ever created. -/
theorem verifyClient_rejects_unauthorized :
    ∀ allowedOrigin sharedSecret origin token (clients : List Ws) fresh,
      (sharedSecret ≠ "" ∧ token ≠ some sharedSecret) ∨
      (allowedOrigin ≠ "" ∧ origin ≠ some allowedOrigin) →
      verifyClient allowedOrigin sharedSecret origin token =
        VerifyResult.rejected 401 "Unauthorized" ∧
      handleUpgrade allowedOrigin sharedSecret origin token clients fresh =
        (clients, some 401) := by
  intro ao ss origin token cs fresh h
  have hv : verifyClient ao ss origin token = VerifyResult.rejected 401 "Unauthorized" := by
    rw [verifyClient, if_pos]
    rcases h with h | h
    · exact Or.inr h
    · exact Or.inl h
  exact ⟨hv, by rw [handleUpgrade, hv]⟩

/-- Claim C7 witness: a request with a wrong token against a configured
secret. -/
theorem verifyClient_rejects_unauthorized_witness :
    verifyClient "" "supersecret" none (some "wrong") =
      VerifyResult.rejected 401 "Unauthorized" ∧
    handleUpgrade "" "supersecret" none (some "wrong") [] 7 = ([], some 401) :=
  verifyClient_rejects_unauthorized "" "supersecret" none (some "wrong") [] 7
    (Or.inl ⟨by decide, by decide⟩)

/-- Claim C9: when neither an allowed origin nor a shared secret is
configured (both env-derived strings empty, hence JS-falsy),
verifyClient accepts every upgrade, for all Origin headers and token
parameters, and the pipeline never answers 401. -/
theorem verifyClient_accepts_all_when_unconfigured :
    ∀ origin token (clients : List Ws) fresh,
      verifyClient "" "" origin token = VerifyResult.accepted ∧
      (handleUpgrade "" "" origin token clients fresh).2 = none := by
  intro origin token cs fresh
  have hv : verifyClient "" "" origin token = VerifyResult.accepted := by
    rw [verifyClient, if_neg]
    rintro (⟨h, _⟩ | ⟨h, _⟩) <;> exact h rfl
  exact ⟨hv, by rw [handleUpgrade, hv]⟩

/-! ## Claim C8 -/

theorem serialize_ne_healthBody (e : TelemetryEvent) (c w : Nat) :
    serialize e ≠ healthBody c w := by
  intro h
  have hk : (serialize e).data.get? 2 = some 'k' := by
    show (jsonEventPre ++ serializeRest e).data.get? 2 = some 'k'
    rw [data_append]
    rfl
  have ho : (healthBody c w).data.get? 2 = some 'o' := by
    show (jsonHealthPre ++ toString c ++ ",\"wsPort\":" ++ toString w ++ "\x7d").data.get? 2
      = some 'o'
    rw [data_append, data_append, data_append, data_append]
    rfl
  rw [h] at hk
  exact absurd (hk.symm.trans ho) (by decide)

/-- Claim C8, counterexample to the claim as stated: the /health
response does not expose whether an upstream session is currently
attached — its body is the constant object with ok, cdpPort and wsPort,
identical in the attached and non-attached states, so no reading of the
response can recover the attachment state. -/
theorem health_does_not_expose_attachment :
    ¬ ∃ f : HttpResponse → Bool, ∀ attached : Bool,
        f (handleHttpRequest 9222 8080 attached "/health") = attached := by
  rintro ⟨f, hf⟩
  have h1 := hf true
  have h2 := hf false
  rw [show handleHttpRequest 9222 8080 true "/health"
        = handleHttpRequest 9222 8080 false "/health" from rfl] at h1
  exact absurd (h1.symm.trans h2) (by decide)

/-- Claim C8 (amended): GET /health returns a 200 JSON body exposing an
ok flag and the configured ports (cdpPort and wsPort); the body is
independent of whether an upstream session is attached (no attached y/n
is reported), it is never the serialization of a telemetry event (the
endpoint is not part of the event stream), and every other url gets
404. -/
theorem health_endpoint_behavior :
    ∀ cdpPort wsPort attached,
      handleHttpRequest cdpPort wsPort attached "/health" =
        ⟨200, some "application/json", healthBody cdpPort wsPort⟩ ∧
      handleHttpRequest cdpPort wsPort true "/health" =
        handleHttpRequest cdpPort wsPort false "/health" ∧
      (∀ e, serialize e ≠ healthBody cdpPort wsPort) ∧
      (∀ url, url ≠ "/health" →
        handleHttpRequest cdpPort wsPort attached url = ⟨404, none, ""⟩) := by
  intro c w attached
  refine ⟨rfl, rfl, fun e => serialize_ne_healthBody e c w, ?_⟩
  intro url hu
  rw [handleHttpRequest, if_neg hu]

/-- Claim C8 witness: the behavior theorem applied at the default ports
and a non-health url. -/
theorem health_endpoint_behavior_witness :
    handleHttpRequest 9222 8080 true "/metrics" = ⟨404, none, ""⟩ :=
  (health_endpoint_behavior 9222 8080 true).2.2.2 "/metrics" (by decide)

/-! ## Claim C6 -/

/-- Claim C6: each sweep terminates and removes every subscriber whose
isAlive flag is false, and clears the flag of and probes every other
subscriber; a pong sets the flag back.  Consequently a subscriber that
stops answering probes is gone within two sweeps of its last answer —
by the third sweep at the latest — and a subscriber that answers every
probe survives every sweep. -/
theorem heartbeat_two_tick_liveness :
    (∀ cs,
      (heartbeatSweep cs).terminated = (cs.filter (fun ws => !ws.isAlive)).map (fun ws => ws.id) ∧
      (heartbeatSweep cs).clients =
        (cs.filter (fun ws => ws.isAlive)).map (fun ws => { ws with isAlive := false }) ∧
      (heartbeatSweep cs).pinged = (cs.filter (fun ws => ws.isAlive)).map (fun ws => ws.id)) ∧
    (∀ ws : Ws, ws.isAlive = false →
      (heartbeatSweep [ws]).clients = [] ∧ (heartbeatSweep [ws]).terminated = [ws.id]) ∧
    (∀ ws : Ws, ws.isAlive = true →
      (heartbeatSweep [ws]).clients = [{ ws with isAlive := false }] ∧
      (onPong { ws with isAlive := false }).isAlive = true) ∧
    (∀ (a : Bool) (answers : List Bool), 2 ≤ answers.length →
      (∀ b ∈ answers, b = false) → trackSweeps (some a) answers = none) ∧
    (∀ answers : List Bool, (∀ b ∈ answers, b = true) →
      trackSweeps (some true) answers = some true) := by
  refine ⟨heartbeatSweep_spec, ?_, ?_, ?_, ?_⟩
  · intro ws h; rw [heartbeatSweep, if_pos h]; exact ⟨rfl, rfl⟩
  · intro ws h
    rw [heartbeatSweep, if_neg (by simp [h])]
    exact ⟨rfl, rfl⟩
  · intro a answers hlen hall
    match answers, hlen with
    | b1 :: b2 :: rest, _ =>
      have h1 : b1 = false := hall b1 (List.mem_cons_self _ _)
      have h2 : b2 = false := hall b2 (List.mem_cons_of_mem _ (List.mem_cons_self _ _))
      subst h1; subst h2
      cases a with
      | false => rfl
      | true => rfl
  · intro answers hall
    induction answers with
    | nil => rfl
    | cons b rest ih =>
      have hb : b = true := hall b (List.mem_cons_self _ _)
      subst hb
      have := ih (fun x hx => hall x (List.mem_cons_of_mem _ hx))
      simpa [trackSweeps] using this

/-- Claim C6 witness: a subscriber that misses two consecutive probes
is gone, and one that answers three probes in a row survives. -/
theorem heartbeat_two_tick_liveness_witness :
    trackSweeps (some true) [false, false] = none ∧
    trackSweeps (some true) [true, true, true] = some true :=
  ⟨heartbeat_two_tick_liveness.2.2.2.1 true [false, false] (by decide) (by decide),
   heartbeat_two_tick_liveness.2.2.2.2 [true, true, true] (by decide)⟩

/-! ## Claim C10 -/

/-- Claim C10: the connection handler registers no message listener, so
the server sends no frame in reply to any client-to-server WebSocket
message — in particular a JSON ping frame gets no application-level
pong and leaves the subscriber set untouched; indeed no registered
listener (pong, close, error) ever sends a frame.  Liveness rides
exclusively on the transport primitive: the sweep pings every live
subscriber and the transport pong event sets its isAlive flag. -/
theorem no_application_level_pong :
    "message" ∉ connectionListenerKinds ∧
    (∀ cs i data, handleSocketEvent cs i (SocketEvent.message data) = (cs, [])) ∧
    (∀ cs i ev, (handleSocketEvent cs i ev).2 = []) ∧
    (∀ cs i, (handleSocketEvent cs i SocketEvent.pong).1 =
      cs.map fun ws => if ws.id = i then onPong ws else ws) ∧
    (∀ cs, (heartbeatSweep cs).pinged = (cs.filter (fun ws => ws.isAlive)).map (fun ws => ws.id)) := by
  refine ⟨by decide, fun cs i data => rfl, fun cs i ev => ?_, fun cs i => ?_, ?_⟩
  · cases ev <;> rfl
  · rw [handleSocketEvent]
    exact List.map_congr_left fun ws _ => by rw [onPong]
  · intro cs
    exact (heartbeatSweep_spec cs).2.2

/-! ## Claims C3 and C4 -/

theorem attachGo_mem (base maxA : Nat) (oc : Nat → Bool) :
    ∀ fuel attempt pd k d,
      (k, d) ∈ (attachGo base maxA oc fuel attempt pd).attempts →
      (k = attempt + 1 ∧ d = pd) ∨ (attempt + 2 ≤ k ∧ d = base * 2 ^ (k - 2)) := by
  intro fuel
  induction fuel with
  | zero =>
    intro attempt pd k d h
    exact absurd h (List.not_mem_nil _)
  | succ fuel ih =>
    intro attempt pd k d h
    rw [attachGo] at h
    by_cases h1 : oc (attempt + 1) = true
    · rw [if_pos h1] at h
      rcases List.mem_singleton.mp h with h
      exact Or.inl ⟨congrArg Prod.fst h, congrArg Prod.snd h⟩
    · rw [if_neg h1] at h
      by_cases h2 : maxA ≤ attempt + 1
      · rw [if_pos h2] at h
        rcases List.mem_singleton.mp h with h
        exact Or.inl ⟨congrArg Prod.fst h, congrArg Prod.snd h⟩
      · rw [if_neg h2] at h
        rcases List.mem_cons.mp h with h | h
        · exact Or.inl ⟨congrArg Prod.fst h, congrArg Prod.snd h⟩
        · rcases ih (attempt + 1) (base * 2 ^ (attempt + 1 - 1)) k d h with ⟨hk, hd⟩ | ⟨hk, hd⟩
          · refine Or.inr ⟨by omega, ?_⟩
            rw [hd]
            have hexp : attempt + 1 - 1 = k - 2 := by omega
            rw [hexp]
          · exact Or.inr ⟨by omega, hd⟩

theorem attachGo_numbering (base maxA : Nat) (oc : Nat → Bool) :
    ∀ fuel attempt pd,
      (attachGo base maxA oc fuel attempt pd).attempts.map Prod.fst =
      List.range' (attempt + 1) (attachGo base maxA oc fuel attempt pd).attempts.length := by
  intro fuel
  induction fuel with
  | zero => intro attempt pd; rfl
  | succ fuel ih =>
    intro attempt pd
    rw [attachGo]
    by_cases h1 : oc (attempt + 1) = true
    · rw [if_pos h1]; rfl
    · rw [if_neg h1]
      by_cases h2 : maxA ≤ attempt + 1
      · rw [if_pos h2]; rfl
      · rw [if_neg h2]
        simp only [List.map_cons, List.length_cons, List.range'_succ]
        exact congrArg (List.cons (attempt + 1)) (ih (attempt + 1) (base * 2 ^ (attempt + 1 - 1)))

theorem attachGo_all_fail (base maxA : Nat) (oc : Nat → Bool) :
    ∀ fuel attempt pd, fuel + attempt = maxA → 1 ≤ fuel →
      (∀ n, attempt + 1 ≤ n → n ≤ maxA → oc n = false) →
      (attachGo base maxA oc fuel attempt pd).attempts.length = fuel ∧
      (attachGo base maxA oc fuel attempt pd).fatalReports = 1 ∧
      (attachGo base maxA oc fuel attempt pd).attached = false := by
  intro fuel
  induction fuel with
  | zero => intro attempt pd hsum hpos; omega
  | succ fuel ih =>
    intro attempt pd hsum hpos hfail
    have h1 : oc (attempt + 1) = false := hfail (attempt + 1) (le_refl _) (by omega)
    rw [attachGo, if_neg (by rw [h1]; exact Bool.false_ne_true)]
    by_cases h2 : maxA ≤ attempt + 1
    · rw [if_pos h2]
      have : fuel = 0 := by omega
      subst this
      exact ⟨rfl, rfl, rfl⟩
    · rw [if_neg h2]
      obtain ⟨hl, hf, ha⟩ :=
        ih (attempt + 1) (base * 2 ^ (attempt + 1 - 1)) (by omega) (by omega)
          (fun n hn1 hn2 => hfail n (by omega) hn2)
      refine ⟨?_, hf, ha⟩
      simp only [List.length_cons, hl]

/-- Claim C3: in every run of the attach-retry loop, the delay awaited
between the end of attempt k-1's failure and the start of attempt k is
RETRY_INTERVAL_MS * 2 ^ (k - 2) for every k ≥ 2, and no delay precedes
attempt 1 — for every base delay, every maxAttempts and every
environment outcome sequence. -/
theorem backoff_delay_schedule :
    ∀ base maxA oc k d,
      (k, d) ∈ (attachToChromeWithRetry base maxA oc).attempts →
      (k = 1 → d = 0) ∧ (2 ≤ k → d = base * 2 ^ (k - 2)) := by
  intro base maxA oc k d h
  rcases attachGo_mem base maxA oc maxA 0 0 k d h with ⟨hk, hd⟩ | ⟨hk, hd⟩
  · exact ⟨fun _ => hd, fun h2 => by omega⟩
  · exact ⟨fun h1 => by omega, fun _ => hd⟩

/-- Claim C3 witness: with base 1000 and failures at attempts 1 and 2,
the recorded delay before attempt 2 is 1000 * 2 ^ 0. -/
theorem backoff_delay_schedule_witness :
    ((2 : Nat) = 1 → (1000 : Nat) = 0) ∧
    (2 ≤ (2 : Nat) → (1000 : Nat) = 1000 * 2 ^ (2 - 2)) :=
  backoff_delay_schedule 1000 5 (fun n => n == 3) 2 1000 (by decide)

/-- Claim C4: when every one of the first maxAttempts ≥ 1 attach
attempts fails, the loop performs exactly maxAttempts attempts, stops,
and reports the fatal exceeded-max condition exactly once without
attaching; and every invocation of attachToChromeWithRetry — including
the fresh one made by the disconnect handler — numbers its attempts
1, 2, 3, ... from a counter restarted at zero. -/
theorem retry_gives_up_after_max_attempts :
    (∀ base maxA oc, 1 ≤ maxA →
      (∀ n, 1 ≤ n → n ≤ maxA → oc n = false) →
      (attachToChromeWithRetry base maxA oc).attempts.length = maxA ∧
      (attachToChromeWithRetry base maxA oc).fatalReports = 1 ∧
      (attachToChromeWithRetry base maxA oc).attached = false) ∧
    (∀ base maxA oc,
      (attachToChromeWithRetry base maxA oc).attempts.map Prod.fst =
      List.range' 1 (attachToChromeWithRetry base maxA oc).attempts.length) := by
  constructor
  · intro base maxA oc hpos hfail
    exact attachGo_all_fail base maxA oc maxA 0 0 (by omega) hpos
      (fun n hn1 hn2 => hfail n hn1 hn2)
  · intro base maxA oc
    exact attachGo_numbering base maxA oc maxA 0 0

/-- Claim C4 witness: five straight failures at the default settings
give exactly five attempts and one fatal report. -/
theorem retry_gives_up_after_max_attempts_witness :
    (attachToChromeWithRetry 1000 5 (fun _ => false)).attempts.length = 5 ∧
    (attachToChromeWithRetry 1000 5 (fun _ => false)).fatalReports = 1 ∧
    (attachToChromeWithRetry 1000 5 (fun _ => false)).attached = false :=
  retry_gives_up_after_max_attempts.1 1000 5 (fun _ => false) (by decide)
    (fun n hn1 hn2 => rfl)


/-! ## Claim C1 -/

theorem inv_init : Session.Inv Session.init :=
  fun _ hg => absurd hg (List.not_mem_nil _)

theorem inv_step (s : Session.St) (a : Session.Act) (h : Session.Inv s) :
    Session.Inv (Session.step s a) := by
  cases a with
  | connect enablesOk =>
    by_cases hc : s.shuttingDown = false
    · intro g hg
      simp only [Session.step, if_pos hc] at hg ⊢
      rcases List.mem_cons.mp hg with rfl | hg
      · exact Nat.lt_succ_self _
      · exact Nat.lt_succ_of_lt (h g hg)
    · intro g hg
      simp only [Session.step, if_neg hc] at hg ⊢
      exact h g hg
  | disconnect g0 =>
    intro g hg
    simp only [Session.step] at hg ⊢
    exact h g (List.mem_of_mem_filter hg)
  | netEvent g0 =>
    by_cases hc : g0 ∈ s.alive ∧ g0 ∈ s.wired
    · intro g hg
      simp only [Session.step, if_pos hc] at hg ⊢
      exact h g hg
    · intro g hg
      simp only [Session.step, if_neg hc] at hg ⊢
      exact h g hg
  | perfTick g0 =>
    by_cases hc : s.current ≠ none ∧ s.shuttingDown = false ∧ g0 ∈ s.alive ∧ g0 ∈ s.wired
    · intro g hg
      simp only [Session.step, if_pos hc] at hg ⊢
      exact h g hg
    · intro g hg
      simp only [Session.step, if_neg hc] at hg ⊢
      exact h g hg
  | beginShutdown =>
    intro g hg
    simp only [Session.step] at hg ⊢
    exact h g hg

theorem inv_run (l : List Session.Act) :
    ∀ s, Session.Inv s → Session.Inv (Session.run s l) := by
  induction l with
  | nil => intro s h; exact h
  | cons a l ih => intro s h; exact ih (Session.step s a) (inv_step s a h)

theorem step_log (s : Session.St) (a : Session.Act) :
    ∃ u, (Session.step s a).log = s.log ++ u ∧ ∀ e ∈ u, e.1 ∈ s.alive := by
  cases a with
  | connect enablesOk =>
    by_cases hc : s.shuttingDown = false
    · exact ⟨[], by simp [Session.step, hc], by simp⟩
    · exact ⟨[], by simp [Session.step, hc], by simp⟩
  | disconnect g0 => exact ⟨[], by simp [Session.step], by simp⟩
  | netEvent g0 =>
    by_cases hc : g0 ∈ s.alive ∧ g0 ∈ s.wired
    · refine ⟨[(g0, s.current)], by simp only [Session.step, if_pos hc], ?_⟩
      intro e he
      rcases List.mem_singleton.mp he with rfl
      exact hc.1
    · exact ⟨[], by simp only [Session.step, if_neg hc, List.append_nil], by simp⟩
  | perfTick g0 =>
    by_cases hc : s.current ≠ none ∧ s.shuttingDown = false ∧ g0 ∈ s.alive ∧ g0 ∈ s.wired
    · refine ⟨[(g0, s.current)], by simp only [Session.step, if_pos hc], ?_⟩
      intro e he
      rcases List.mem_singleton.mp he with rfl
      exact hc.2.2.1
    · exact ⟨[], by simp only [Session.step, if_neg hc, List.append_nil], by simp⟩
  | beginShutdown => exact ⟨[], by simp [Session.step], by simp⟩

theorem dead_step (g : Nat) (s : Session.St) (a : Session.Act)
    (h : Session.Dead g s) : Session.Dead g (Session.step s a) := by
  obtain ⟨h1, h2⟩ := h
  cases a with
  | connect enablesOk =>
    by_cases hc : s.shuttingDown = false
    · constructor
      · simp only [Session.step, if_pos hc, List.mem_cons]
        intro hor
        rcases hor with rfl | hmem
        · omega
        · exact h1 hmem
      · simp only [Session.step, if_pos hc]
        omega
    · exact ⟨by simpa only [Session.step, if_neg hc] using h1,
             by simpa only [Session.step, if_neg hc] using h2⟩
  | disconnect g0 =>
    exact ⟨fun hmem => h1 (List.mem_of_mem_filter hmem), h2⟩
  | netEvent g0 =>
    by_cases hc : g0 ∈ s.alive ∧ g0 ∈ s.wired
    · exact ⟨by simpa only [Session.step, if_pos hc] using h1,
             by simpa only [Session.step, if_pos hc] using h2⟩
    · exact ⟨by simpa only [Session.step, if_neg hc] using h1,
             by simpa only [Session.step, if_neg hc] using h2⟩
  | perfTick g0 =>
    by_cases hc : s.current ≠ none ∧ s.shuttingDown = false ∧ g0 ∈ s.alive ∧ g0 ∈ s.wired
    · exact ⟨by simpa only [Session.step, if_pos hc] using h1,
             by simpa only [Session.step, if_pos hc] using h2⟩
    · exact ⟨by simpa only [Session.step, if_neg hc] using h1,
             by simpa only [Session.step, if_neg hc] using h2⟩
  | beginShutdown => exact ⟨h1, h2⟩

theorem dead_run_log (g : Nat) :
    ∀ (l : List Session.Act) (s : Session.St), Session.Dead g s →
      ∃ t, (Session.run s l).log = s.log ++ t ∧ ∀ e ∈ t, e.1 ≠ g := by
  intro l
  induction l with
  | nil => intro s _; exact ⟨[], (List.append_nil _).symm, by simp⟩
  | cons a l ih =>
    intro s h
    obtain ⟨u, hu, hum⟩ := step_log s a
    obtain ⟨t, ht, htm⟩ := ih (Session.step s a) (dead_step g s a h)
    refine ⟨u ++ t, ?_, ?_⟩
    · rw [show Session.run s (a :: l) = Session.run (Session.step s a) l from rfl, ht, hu,
          List.append_assoc]
    · intro e he
      rcases List.mem_append.mp he with he | he
      · exact fun hg => h.1 (hg ▸ hum e he)
      · exact htm e he

/-- Claim C1, counterexample to the claim as stated, on the trace the
code reaches through its collapsed error path: attempt 1's CDP()
succeeds for handle 0 but a domain enable rejects, leaking handle 0
connected with its disconnect handler and no listeners; the retry
fully attaches handle 1; handle 0's transport later drops and its
handler starts an unconditional reattach, which fully attaches handle
2 while handle 1 is still live; handle 1's network listener then
broadcasts an event although cdpClient points at handle 2 — a
delivered TelemetryEvent that was not produced by the currently
attached session handle, after a reattach began. -/
theorem stale_handle_broadcast_after_reattach :
    (Session.run Session.init
      [Session.Act.connect false, Session.Act.connect true, Session.Act.disconnect 0,
       Session.Act.connect true, Session.Act.netEvent 1]).log = [(1, some 2)] ∧
    ¬ (∀ e ∈ (Session.run Session.init
        [Session.Act.connect false, Session.Act.connect true, Session.Act.disconnect 0,
         Session.Act.connect true, Session.Act.netEvent 1]).log, e.2 = some e.1) := by
  decide

/-- Claim C1 (amended): once the disconnect of a handle g is processed
— the moment g's own disconnect handler begins a reattach — g's
per-domain listeners and its self-rescheduling performance-metrics
timer never cause another broadcast.  The stronger original form fails:
a handle is not necessarily superseded by a later attach (a
domain-enable failure leaks a connected handle whose later disconnect
triggers an unconditional reattach while a fully-attached handle is
still live and broadcasting), so delivered events need not come from
the handle cdpClient currently points to. -/
theorem no_broadcast_after_own_disconnect :
    ∀ (l1 : List Session.Act) (g : Nat) (l2 : List Session.Act),
      g ∈ (Session.run Session.init l1).alive →
      ∀ e ∈ ((Session.run Session.init (l1 ++ Session.Act.disconnect g :: l2)).log.drop
              (Session.run Session.init (l1 ++ [Session.Act.disconnect g])).log.length),
        e.1 ≠ g := by
  intro l1 g l2 hg e he
  have hs1 : Session.run Session.init (l1 ++ [Session.Act.disconnect g]) =
      Session.step (Session.run Session.init l1) (Session.Act.disconnect g) := by
    rw [Session.run, List.foldl_append]
    rfl
  have hsplit : l1 ++ Session.Act.disconnect g :: l2 =
      (l1 ++ [Session.Act.disconnect g]) ++ l2 := by simp
  have h2 : Session.run Session.init (l1 ++ Session.Act.disconnect g :: l2) =
      Session.run (Session.run Session.init (l1 ++ [Session.Act.disconnect g])) l2 := by
    rw [hsplit, Session.run, List.foldl_append]
    rfl
  have hinv : Session.Inv (Session.run Session.init l1) :=
    inv_run l1 Session.init inv_init
  have hdead : Session.Dead g (Session.run Session.init (l1 ++ [Session.Act.disconnect g])) := by
    rw [hs1]
    constructor
    · simp [Session.step, List.mem_filter]
    · have := hinv g hg
      simpa only [Session.step] using this
  obtain ⟨t, ht, htm⟩ := dead_run_log g l2 _ hdead
  rw [h2, ht, List.drop_left] at he
  exact htm e he

/-- Claim C1 witness: handle 0 fully attaches and disconnects; the
reattach fully attaches handle 1, which broadcasts, while handle 0's
stale performance tick after the reattach produces nothing — no
generation-0 event appears after handle 0's disconnect. -/
theorem no_broadcast_after_own_disconnect_witness :
    (0, some 0) ∉
      ((Session.run Session.init
          ([Session.Act.connect true] ++ Session.Act.disconnect 0 ::
            [Session.Act.connect true, Session.Act.netEvent 1, Session.Act.perfTick 0])).log.drop
        (Session.run Session.init
          ([Session.Act.connect true] ++ [Session.Act.disconnect 0])).log.length) := by
  intro hmem
  exact no_broadcast_after_own_disconnect [Session.Act.connect true] 0
    [Session.Act.connect true, Session.Act.netEvent 1, Session.Act.perfTick 0]
    (by decide) (0, some 0) hmem rfl
